import Mathlib

/-!
Verification of the gmail-to-sqlite synchronization tool.

The development shallowly embeds the program's Python modules as Lean
functions and proves the specification's claims about them:

* `gmail_to_sqlite/auth.py` — account resolution (`_get_account_data_dir`).
* `gmail_to_sqlite/main.py` — the SIGINT handler and the order of effects
  of the `main` entry point.
* `gmail_to_sqlite/agents/tools.py` — the SQL tool: SQL-vs-natural-language
  dispatch, LLM generation with validation, the pattern-matching fallback,
  and result formatting.
* The synchronization engine (`sync.py` / `db.py`) is imported by
  `main.py` but its source files are not part of the repository snapshot;
  the definitions for it are modelled from the specification and say so in
  their doc comments.
-/

namespace GmailToSqlite

/-! ## Python string primitives

The tool manipulates Python `str` values with `strip`, `upper`, `lower`,
`startswith`, `in` and slicing.  These are modelled over `List Char`
(Python's `\s` for the ASCII inputs at hand: space, tab, newline, carriage
return, vertical tab, form feed). -/

def pyIsSpace (c : Char) : Bool :=
  c = ' ' || c = '\t' || c = '\n' || c = '\r' || c = '\x0b' || c = '\x0c'

/-- Python `str.strip()`: remove leading and trailing whitespace. -/
def pyStrip (l : List Char) : List Char :=
  ((l.dropWhile pyIsSpace).reverse.dropWhile pyIsSpace).reverse

/-- Python `str.upper()` on one ASCII character. -/
def pyUpperChar (c : Char) : Char :=
  if 'a' ≤ c && c ≤ 'z' then Char.ofNat (c.toNat - 32) else c

/-- Python `str.lower()` on one ASCII character. -/
def pyLowerChar (c : Char) : Char :=
  if 'A' ≤ c && c ≤ 'Z' then Char.ofNat (c.toNat + 32) else c

def pyUpper (l : List Char) : List Char := l.map pyUpperChar

def pyLower (l : List Char) : List Char := l.map pyLowerChar

/-- Python `sub in s` (substring containment). -/
def containsSub : List Char → List Char → Bool
  | [], sub => sub.isEmpty
  | c :: t, sub => sub.isPrefixOf (c :: t) || containsSub t sub

def pyStripS (s : String) : String := ⟨pyStrip s.data⟩

def pyUpperS (s : String) : String := ⟨pyUpper s.data⟩

def pyLowerS (s : String) : String := ⟨pyLower s.data⟩

def pyContains (s sub : String) : Bool := containsSub s.data sub.data

/-- Python `s.startswith(p)`. -/
def pyStartsWith (s p : String) : Bool := p.data.isPrefixOf s.data

/-! ## `auth.py`: account resolution (`_get_account_data_dir`) -/

/-- One `[[ACCOUNT]]` entry of `.secrets.toml` as `auth.py` reads it:
`acc.get("name")` and `acc.get("data_dir")` each yield `None` when the key
is missing. -/
structure Account where
  name : Option String
  data_dir : Option String
deriving Repr, DecidableEq

/-- The `AuthenticationError` cases raised by `_get_account_data_dir`,
with the data each message carries. -/
inductive AuthenticationError where
  | noAccountsConfigured : AuthenticationError
  | accountNotFound (name : String) (available : List (Option String)) :
      AuthenticationError
  | missingDataDir (accountName : Option String) : AuthenticationError
deriving Repr, DecidableEq

/-- `auth._get_account_data_dir(account_name)`: with `accounts` the
configured `settings.get("ACCOUNT", [])` list.  Mirrors the source: empty
list raises; `None` selects the first account; a named account is looked
up by `acc.get("name") == account_name`; `if not data_dir` rejects both a
missing and an empty `data_dir`. -/
def get_account_data_dir (accounts : List Account) (account_name : Option String) :
    Except AuthenticationError String :=
  match accounts with
  | [] => Except.error AuthenticationError.noAccountsConfigured
  | first :: rest =>
    let found : Except AuthenticationError Account :=
      match account_name with
      | none => Except.ok first
      | some n =>
        match (first :: rest).find? (fun acc => acc.name = some n) with
        | some acc => Except.ok acc
        | none =>
          Except.error
            (AuthenticationError.accountNotFound n ((first :: rest).map Account.name))
    match found with
    | Except.error e => Except.error e
    | Except.ok account =>
      match account.data_dir with
      | none => Except.error (AuthenticationError.missingDataDir account.name)
      | some d =>
        if d = "" then Except.error (AuthenticationError.missingDataDir account.name)
        else Except.ok d

/-! ## `main.py`: the SIGINT handler -/

/-- The observable outcome of one delivery of SIGINT to `handle_sigint`
(`main.py`).  The handler performs no store or checkpoint write of any
kind: it only mutates the shared shutdown flag, optionally cancels queued
futures, or calls `sys.exit(1)`. -/
structure SigintOutcome where
  /-- Contents of the `shutdown_requested` container after the delivery
  (`none` models a handler installed without a container). -/
  shutdown_requested : Option Bool
  /-- `some code` iff the handler called `sys.exit(code)`. -/
  exitCode : Option Nat
  /-- Whether the handler cancelled the not-yet-running futures. -/
  cancelsPendingFutures : Bool
deriving Repr, DecidableEq

/-- `handle_sigint` from `main.setup_signal_handler`: first signal sets the
flag (and cancels pending futures when an executor and futures dict were
supplied); a signal with the flag already set, or with no container at
all, exits immediately with status 1. -/
def handle_sigint (shutdown_requested : Option Bool) (hasExecutorAndFutures : Bool) :
    SigintOutcome :=
  match shutdown_requested with
  | some flag =>
    if !flag then
      { shutdown_requested := some true
        exitCode := none
        cancelsPendingFutures := hasExecutorAndFutures }
    else
      { shutdown_requested := some flag
        exitCode := some 1
        cancelsPendingFutures := false }
  | none =>
    { shutdown_requested := none
      exitCode := some 1
      cancelsPendingFutures := false }

/-! ## `main.py`: order of effects of the entry point -/

/-- The subcommands of `main.py`. -/
inductive Command where
  | sync
  | syncMessage
  | syncDeletedMessages
  | chat
deriving Repr, DecidableEq

/-- The externally visible effects `main` performs, in order. -/
inductive MainEvent where
  | prepareDataDir
  | getCredentials
  | setupSignalHandler
  | dbInit
  | syncAllMessages
  | syncSingleMessage
  | syncDeleted
  | chatSession
  | exitFailure
deriving Repr, DecidableEq

/-- The sequence of effects of `main.main()` after a successful
account/data-dir resolution, parameterised by whether
`auth.get_credentials` succeeds (`credsOk`).  Mirrors the source:
credentials are fetched for every non-chat command before the signal
handler is installed and before `db.init`; a raised credential error
propagates to the top-level handlers, which log and `sys.exit(1)`. -/
def mainEvents (cmd : Command) (credsOk : Bool) : List MainEvent :=
  MainEvent.prepareDataDir ::
    (if cmd = Command.chat then
      [MainEvent.setupSignalHandler, MainEvent.chatSession]
    else if credsOk then
      MainEvent.getCredentials :: MainEvent.setupSignalHandler ::
        (match cmd with
          | Command.sync => [MainEvent.dbInit, MainEvent.syncAllMessages]
          | Command.syncMessage => [MainEvent.dbInit, MainEvent.syncSingleMessage]
          | Command.syncDeletedMessages => [MainEvent.dbInit, MainEvent.syncDeleted]
          | Command.chat => [])
    else [MainEvent.getCredentials, MainEvent.exitFailure])

/-- Whether an event touches the database or performs a fetch/sync. -/
def MainEvent.touchesSyncState : MainEvent → Bool
  | MainEvent.dbInit => true
  | MainEvent.syncAllMessages => true
  | MainEvent.syncSingleMessage => true
  | MainEvent.syncDeleted => true
  | _ => false

/-! ## `agents/tools.py`: the SQL tool

`EnhancedSQLiteTool._run` decides whether its input is already SQL
(`query.strip().upper().startswith(...)`); a natural-language input goes
through `_intelligent_sql_generation`, which either asks the LLM
(validating that the stripped response starts with `SELECT`/`WITH`, any
failure falling through to the pattern matcher) or calls
`_fallback_pattern_matching` directly.  The regular expressions of the
fallback are embedded as explicit matchers below. -/

/-- The statement prefixes `_run` accepts as "already SQL". -/
def SQL_COMMANDS : List String := ["SELECT", "INSERT", "UPDATE", "DELETE", "WITH"]

/-- The `is_sql` test of `_run`. -/
def isSqlInput (query : String) : Bool :=
  let query_upper := pyUpperS (pyStripS query)
  SQL_COMMANDS.any (fun cmd => pyStartsWith query_upper cmd)

/-- The year filter of `_fallback_pattern_matching`: the first year in
`range(2000, 2030)` whose decimal text occurs in the lowercased question. -/
def year_filter (ql : List Char) : String :=
  match (List.range' 2000 30).find? (fun y => containsSub ql (toString y).data) with
  | some y => " AND strftime('%Y', timestamp) = '" ++ toString y ++ "'"
  | none => ""

/-- A quote character of the pattern `["\x27\x60]([^"\x27\x60]+)["\x27\x60]`. -/
def isQuoteChar (c : Char) : Bool := c = '"' || c = '\'' || c = '`'

/-- Anchored attempt of the quoted-label pattern at the head of `l`. -/
def quotedAt (l : List Char) : Option (List Char) :=
  match l with
  | [] => none
  | c :: rest =>
    if isQuoteChar c then
      match rest.takeWhile (fun d => !isQuoteChar d),
          rest.dropWhile (fun d => !isQuoteChar d) with
      | [], _ => none
      | _, [] => none
      | g, _ :: _ => some g
    else none

/-- `re.search` of the quoted-label pattern: leftmost match wins. -/
def findQuoted : List Char → Option (List Char)
  | [] => none
  | c :: rest =>
    match quotedAt (c :: rest) with
    | some g => some g
    | none => findQuoted rest

/-- A character matched by `[^,\s]` (one token character). -/
def isTokChar (c : Char) : Bool := !(pyIsSpace c || c = ',')

/-- The alternating token sequence `[^,\s]+ (\s+ [^,\s]+)*` read greedily
from the head of the input; fuel-driven so it computes by `rfl` (each step
consumes at least one character, so `l.length` fuel suffices). -/
def tokSeqAux : Nat → List Char → List (List Char)
  | 0, _ => []
  | _, [] => []
  | Nat.succ fuel, l =>
    let t := l.takeWhile isTokChar
    if t.isEmpty then []
    else
      let r := l.dropWhile isTokChar
      if (r.takeWhile pyIsSpace).isEmpty then [t]
      else t :: tokSeqAux fuel (r.dropWhile pyIsSpace)

def tokSeq (l : List Char) : List (List Char) := tokSeqAux l.length l

/-- Consume a literal. -/
def dropLit (lit l : List Char) : Option (List Char) :=
  if lit.isPrefixOf l then some (l.drop lit.length) else none

/-- Consume `\s+` (greedy; every atom that follows it in the patterns
starts with a non-space character, so no backtracking into it is needed). -/
def dropWs1 (l : List Char) : Option (List Char) :=
  if (l.takeWhile pyIsSpace).isEmpty then none else some (l.dropWhile pyIsSpace)

/-- The group `([^,\s]+(?:\s+[^,\s]+)*)` followed by `\s+label`: regex
backtracking keeps the longest token prefix whose successor token starts
with the literal `label`. -/
def groupBeforeLabel (l : List Char) : Option (List (List Char)) :=
  let toks := tokSeq l
  match (List.range toks.length).reverse.find?
      (fun k => decide (1 ≤ k) && "label".data.isPrefixOf (toks.getD k [])) with
  | some k => some (toks.take k)
  | none => none

/-- The group `([^,\s]+(?:\s+[^,\s]+)*)` at the end of a pattern: greedy,
so it takes every token of the sequence; it must be non-empty. -/
def groupToEnd (l : List Char) : Option (List (List Char)) :=
  match tokSeq l with
  | [] => none
  | t :: ts => some (t :: ts)

/-- An optional `(?:lit\s+)?` prefix: the greedy attempt consumes it, and
backtracks to the bare continuation when the rest of the pattern fails. -/
def withOptional (lit : List Char) (cont : List Char → Option (List (List Char)))
    (l : List Char) : Option (List (List Char)) :=
  match dropLit lit l with
  | some l1 =>
    match dropWs1 l1 with
    | some l2 =>
      match cont l2 with
      | some r => some r
      | none => cont l
    | none => cont l
  | none => cont l

/-- Anchored `with\s+the\s+([^,\s]+(?:\s+[^,\s]+)*)\s+label`. -/
def matchWithTheLabelAt (l : List Char) : Option (List (List Char)) :=
  match dropLit "with".data l with
  | none => none
  | some l1 =>
    match dropWs1 l1 with
    | none => none
    | some l2 =>
      match dropLit "the".data l2 with
      | none => none
      | some l3 =>
        match dropWs1 l3 with
        | none => none
        | some l4 => groupBeforeLabel l4

/-- Anchored `labeled?\s+(?:as\s+)?([^,\s]+(?:\s+[^,\s]+)*)`: the literal
is `labele` with an optional final `d` (tried greedily first). -/
def matchLabeledAsAt (l : List Char) : Option (List (List Char)) :=
  match dropLit "labele".data l with
  | none => none
  | some l1 =>
    let withD : Option (List (List Char)) :=
      match dropLit "d".data l1 with
      | some l1d =>
        match dropWs1 l1d with
        | some l2 => withOptional "as".data groupToEnd l2
        | none => none
      | none => none
    match withD with
    | some r => some r
    | none =>
      match dropWs1 l1 with
      | some l2 => withOptional "as".data groupToEnd l2
      | none => none

/-- Anchored `having\s+(?:the\s+)?([^,\s]+(?:\s+[^,\s]+)*)\s+label`. -/
def matchHavingLabelAt (l : List Char) : Option (List (List Char)) :=
  match dropLit "having".data l with
  | none => none
  | some l1 =>
    match dropWs1 l1 with
    | none => none
    | some l2 => withOptional "the".data groupBeforeLabel l2

/-- Anchored `tagged\s+(?:as\s+)?([^,\s]+(?:\s+[^,\s]+)*)`. -/
def matchTaggedAsAt (l : List Char) : Option (List (List Char)) :=
  match dropLit "tagged".data l with
  | none => none
  | some l1 =>
    match dropWs1 l1 with
    | none => none
    | some l2 => withOptional "as".data groupToEnd l2

/-- `re.search`: try the anchored matcher at every position, leftmost
match first. -/
def searchPattern (matchAt : List Char → Option (List (List Char))) :
    List Char → Option (List (List Char))
  | [] => none
  | c :: rest =>
    match matchAt (c :: rest) with
    | some r => some r
    | none => searchPattern matchAt rest

/-- The hard-coded label names tried when no pattern matches. -/
def COMMON_LABELS : List String :=
  ["inbox", "sent", "draft", "spam", "trash", "important", "starred", "unread"]

/-- `str.split()`-style whitespace split (no empty pieces); fuel-driven so
it computes by `rfl`. -/
def pySplitWsAux : Nat → List Char → List (List Char)
  | 0, _ => []
  | _, [] => []
  | Nat.succ fuel, l =>
    let l1 := l.dropWhile pyIsSpace
    let t := l1.takeWhile (fun c => !pyIsSpace c)
    if t.isEmpty then []
    else t :: pySplitWsAux fuel (l1.dropWhile (fun c => !pyIsSpace c))

def pySplitWs (l : List Char) : List (List Char) := pySplitWsAux l.length l

/-- Python `str.capitalize()`: first character uppercased, rest lowered. -/
def pyCapitalize (w : List Char) : List Char :=
  match w with
  | [] => []
  | c :: t => pyUpperChar c :: pyLower t

/-- A captured token group rendered back to text.  The source keeps the
captured text with its original whitespace runs and applies `.strip()`;
the runs are collapsed here, which `cleaned_label`'s `split()` erases
anyway, so the final label agrees with the source's. -/
def joinTokens (toks : List (List Char)) : List Char :=
  (String.intercalate " " (toks.map String.mk)).data

/-- The label-extraction cascade of the first fallback branch: quoted
text, then the four patterns in order, then the common Gmail labels. -/
def extract_label_name (ql : List Char) : Option (List Char) :=
  match findQuoted ql with
  | some g => some g
  | none =>
    match searchPattern matchWithTheLabelAt ql with
    | some toks => some (joinTokens toks)
    | none =>
      match searchPattern matchLabeledAsAt ql with
      | some toks => some (joinTokens toks)
      | none =>
        match searchPattern matchHavingLabelAt ql with
        | some toks => some (joinTokens toks)
        | none =>
          match searchPattern matchTaggedAsAt ql with
          | some toks => some (joinTokens toks)
          | none =>
            match COMMON_LABELS.find? (fun lab => containsSub ql lab.data) with
            | some lab => some lab.data
            | none => none

/-- `" ".join(word.capitalize() for word in label_name.split())`. -/
def cleaned_label (raw : List Char) : String :=
  String.intercalate " " ((pySplitWs raw).map (fun w => String.mk (pyCapitalize w)))

/-! The nine query texts of `_fallback_pattern_matching`, with the
f-string interpolations written as explicit concatenation. -/

def labelQuery (label_name yf : String) : String :=
  "\n                SELECT subject,
                       sender->>'$.email' as sender,
                       sender->>'$.name' as sender_name,
                       timestamp,
                       is_read,
                       is_outgoing,
                       labels
                FROM messages
                WHERE json_extract(labels, '$') LIKE '%" ++ label_name ++ "%'" ++ yf ++
  "\n                ORDER BY timestamp DESC
                LIMIT 50
                "

def volumeByMonthQuery (yf : String) : String :=
  "\n            SELECT strftime('%Y-%m', timestamp) as month,
                   COUNT(*) as email_count,
                   AVG(size) as avg_size
            FROM messages
            WHERE 1=1" ++ yf ++
  "\n            GROUP BY strftime('%Y-%m', timestamp)
            ORDER BY month DESC
            LIMIT 24
            "

def threadParticipantsQuery (yf : String) : String :=
  "\n            SELECT thread_id,
                   COUNT(*) as message_count,
                   COUNT(DISTINCT sender->>'$.email') as unique_senders,
                   MIN(timestamp) as thread_start,
                   MAX(timestamp) as thread_end
            FROM messages
            WHERE 1=1" ++ yf ++
  "\n            GROUP BY thread_id
            HAVING message_count > 1
            ORDER BY unique_senders DESC, message_count DESC
            LIMIT 10
            "

def responseTimeQuery (yf : String) : String :=
  "\n            SELECT sender->>'$.email' as contact,
                   AVG(julianday(timestamp) - julianday(LAG(timestamp) OVER (ORDER BY timestamp))) * 24 * 60 as avg_response_minutes,
                   COUNT(*) as email_count
            FROM messages
            WHERE is_outgoing = 0" ++ yf ++
  "\n            GROUP BY sender->>'$.email'
            HAVING email_count > 5
            ORDER BY avg_response_minutes ASC
            LIMIT 10
            "

def dayOfWeekHourQuery (yf : String) : String :=
  "\n            SELECT strftime('%w', timestamp) as day_of_week,
                   strftime('%H', timestamp) as hour,
                   COUNT(*) as email_count
            FROM messages
            WHERE 1=1" ++ yf ++
  "\n            GROUP BY day_of_week, hour
            ORDER BY email_count DESC
            LIMIT 20
            "

def topSendersQuery (yf : String) : String :=
  "\n            SELECT sender->>'$.email' as sender_email,
                   sender->>'$.name' as sender_name,
                   COUNT(*) as email_count,
                   MAX(timestamp) as last_email
            FROM messages
            WHERE is_outgoing = 0" ++ yf ++
  "\n            GROUP BY sender->>'$.email', sender->>'$.name'
            ORDER BY email_count DESC
            LIMIT 15
            "

def unreadQuery (yf : String) : String :=
  "\n            SELECT COUNT(*) as unread_count,
                   COUNT(CASE WHEN is_outgoing = 0 THEN 1 END) as unread_received,
                   COUNT(CASE WHEN is_outgoing = 1 THEN 1 END) as unread_sent
            FROM messages
            WHERE is_read = 0" ++ yf ++
  "\n            "

def lastWeekQuery (yf : String) : String :=
  "\n            SELECT DATE(timestamp) as date,
                   COUNT(*) as daily_count,
                   COUNT(CASE WHEN is_outgoing = 0 THEN 1 END) as received,
                   COUNT(CASE WHEN is_outgoing = 1 THEN 1 END) as sent
            FROM messages
            WHERE timestamp >= date('now', '-7 days')" ++ yf ++
  "\n            GROUP BY DATE(timestamp)
            ORDER BY date DESC
            "

def defaultQuery (yf : String) : String :=
  "\n            SELECT subject,
                   sender->>'$.email' as sender,
                   timestamp,
                   is_read,
                   is_outgoing,
                   CASE WHEN length(body) > 100 THEN substr(body, 1, 100) || '...' ELSE body END as preview
            FROM messages
            WHERE 1=1" ++ yf ++
  "\n            ORDER BY timestamp DESC
            LIMIT 10
            "

/-- `_fallback_pattern_matching`.  `none` models the implicit Python
`None` that falls out of the first branch when the branch is taken but no
label name is extracted (the branch's `if label_name:` has no `else` and
the `elif` chain is skipped). -/
def fallback_pattern_matching (question : String) : Option String :=
  let ql := (pyLowerS question).data
  let yf := year_filter ql
  if containsSub ql "label".data ||
      (["with", "having", "tagged"].any (fun w => containsSub ql w.data)) then
    match extract_label_name ql with
    | some raw => some (labelQuery (cleaned_label raw) yf)
    | none => none
  else if (containsSub ql "compare".data && containsSub ql "volume".data) ||
      containsSub ql "by month".data then
    some (volumeByMonthQuery yf)
  else if containsSub ql "thread".data &&
      (containsSub ql "participants".data || containsSub ql "people".data) then
    some (threadParticipantsQuery yf)
  else if containsSub ql "response time".data || containsSub ql "reply time".data then
    some (responseTimeQuery yf)
  else if containsSub ql "day of week".data || containsSub ql "hour".data then
    some (dayOfWeekHourQuery yf)
  else if containsSub ql "who sends me the most emails".data ||
      containsSub ql "top senders".data then
    some (topSendersQuery yf)
  else if containsSub ql "unread".data then
    some (unreadQuery yf)
  else if containsSub ql "last week".data || containsSub ql "past week".data then
    some (lastWeekQuery yf)
  else
    some (defaultQuery yf)

/-- `_intelligent_sql_generation`.  The LLM is modelled by its observable
behaviour: `none` is a tool built without an LLM, `some (Except.error ())`
a raised `llm.call`, `some (Except.ok r)` a returned response text.  A
response whose stripped text does not start with `SELECT`/`WITH` raises
`ValueError`, which the enclosing `except` turns into the fallback. -/
def intelligent_sql_generation (llm : Option (Except Unit String))
    (question : String) : Option String :=
  match llm with
  | none => fallback_pattern_matching question
  | some (Except.error _) => fallback_pattern_matching question
  | some (Except.ok response) =>
    let sql_query := pyStripS response
    if pyStartsWith (pyUpperS sql_query) "SELECT" ||
        pyStartsWith (pyUpperS sql_query) "WITH" then
      some sql_query
    else fallback_pattern_matching question

/-- The SQL string `_run` hands to `_execute_sql_query`: the input itself
when it already looks like SQL, otherwise the generated query.  `none`
models the Python `None` whose execution raises before any SQL runs. -/
def run_selected_sql (llm : Option (Except Unit String)) (query : String) :
    Option String :=
  if isSqlInput query then some query
  else intelligent_sql_generation llm query

/-! ## `agents/tools.py`: result formatting (`_execute_sql_query`) -/

/-- Python `s[:k]` for a possibly negative bound. -/
def pySliceTo (s : List Char) (k : Int) : List Char :=
  if 0 ≤ k then s.take k.toNat else s.take (s.length - (-k).toNat)

/-- One result cell: `none` is SQL NULL, `some s` holds `str(value)`. -/
abbrev Cell := Option String

/-- Cell rendering of `_execute_sql_query`: `None` prints as `NULL`; a
string longer than the configured field limit is cut to `limit - 3`
characters (Python slicing semantics) and suffixed with `...`. -/
def formatCell (max_field_length : Option Nat) (v : Cell) : String :=
  match v with
  | none => "NULL"
  | some s =>
    match max_field_length with
    | some m =>
      if s.length > m then String.mk (pySliceTo s.data ((m : Int) - 3)) ++ "..."
      else s
    | none => s

/-- One formatted result row. -/
def formatRow (max_field_length : Option Nat) (row : List Cell) : String :=
  String.intercalate " | " (row.map (formatCell max_field_length))

/-- The header and separator lines. -/
def headerLines (column_names : List String) : List String :=
  let header := String.intercalate " | " column_names
  [header, String.mk (List.replicate header.length '-')]

/-- The truncation notice appended when rows were cut off. -/
def truncationLine (total shown : Nat) : String :=
  "... (" ++ toString total ++ " total rows, showing first " ++ toString shown ++ ")"

/-- The list of output lines of `_execute_sql_query` for a non-empty
result set with column names. -/
def execute_sql_query_lines (max_rows max_field_length : Option Nat)
    (column_names : List String) (results : List (List Cell)) : List String :=
  let rows_to_show := match max_rows with
    | some n => results.take n
    | none => results
  headerLines column_names
  ++ rows_to_show.map (formatRow max_field_length)
  ++ (match max_rows with
      | some n =>
        if results.length > n then [truncationLine results.length n] else []
      | none => [])

/-- `_execute_sql_query` (the formatting path; connection errors are out
of scope).  An empty result short-circuits to `"No results found."`
before column names are examined; a result with no column description
reports the affected row count. -/
def execute_sql_query (max_rows max_field_length : Option Nat)
    (column_names : List String) (results : List (List Cell)) : String :=
  if results.isEmpty then "No results found."
  else if column_names.isEmpty then
    "Query executed successfully. " ++ toString results.length ++ " rows affected."
  else
    String.intercalate "\n"
      (execute_sql_query_lines max_rows max_field_length column_names results)

/-! ## The synchronization engine

`main.py` drives `sync.all_messages`, `sync.single_message`,
`sync.sync_deleted_messages` and `db.*`, but `sync.py` and `db.py` are
not present in the repository snapshot (only their callers are).  The
definitions below are therefore modelled from the specification (§3–§8)
and each doc comment says what it models. -/

/-- Modelled from the spec: a structured name + address (§3 `sender`,
`recipients`). -/
structure Address where
  name : String
  email : String
deriving Repr, DecidableEq

/-- Modelled from the spec: the replaceable fields of a `MessageRecord`
(§3) — everything except the engine-owned `is_deleted` flag and
`last_indexed_at` stamp, which live in `MessageRecord`. -/
structure MessageContent where
  thread_id : String
  sender : Address
  recipients_to : List Address
  recipients_cc : List Address
  recipients_bcc : List Address
  labels : List String
  subject : Option String
  body : Option String
  size_bytes : Nat
  sent_or_received_at : Nat
  is_read : Bool
  is_outgoing : Bool
deriving Repr, DecidableEq

/-- Modelled from the spec: one stored row of the `messages` table (§3). -/
structure MessageRecord where
  content : MessageContent
  is_deleted : Bool
  last_indexed_at : Nat
deriving Repr, DecidableEq

/-- The messages table: rows keyed by `message_id`. -/
abbrev MessageStore := List (String × MessageRecord)

/-- Modelled from the spec: the result of `upsert` (§4.1), refined by §8's
idempotence property — a write of a record identical to the stored live
row reports neither an insert nor an update. -/
inductive UpsertResult where
  | inserted
  | updated
  | unchanged
deriving Repr, DecidableEq

/-- Modelled from the spec: `upsert(record)` (§4.1): insert-or-replace by
primary key, replacing the whole record (§4.3 tie-break policy), stamping
`last_indexed_at` and clearing `is_deleted` (a fetched message exists
remotely).  Per §8's idempotence, writing a record equal to the stored
live row leaves the row untouched and reports `unchanged`. -/
def upsert (now : Nat) (id : String) (c : MessageContent) :
    MessageStore → MessageStore × UpsertResult
  | [] => ([(id, { content := c, is_deleted := false, last_indexed_at := now })],
      UpsertResult.inserted)
  | e :: t =>
    if e.1 = id then
      if e.2.content = c ∧ e.2.is_deleted = false then (e :: t, UpsertResult.unchanged)
      else ((id, { content := c, is_deleted := false, last_indexed_at := now }) :: t,
        UpsertResult.updated)
    else
      let r := upsert now id c t
      (e :: r.1, r.2)

/-- Row lookup by `message_id`. -/
def lookupMsg (store : MessageStore) (id : String) : Option MessageRecord :=
  (store.find? (fun e => e.1 = id)).map (fun e => e.2)

/-- Modelled from the spec: `mark_deleted(ids)` (§4.1): flips
`is_deleted := true` and bumps `last_indexed_at` for the given identifiers
that are not already flagged; returns the flipped count. -/
def mark_deleted (now : Nat) (ids : List String) :
    MessageStore → MessageStore × Nat
  | [] => ([], 0)
  | (i, r) :: t =>
    let rest := mark_deleted now ids t
    if i ∈ ids ∧ r.is_deleted = false then
      ((i, { r with is_deleted := true, last_indexed_at := now }) :: rest.1, rest.2 + 1)
    else ((i, r) :: rest.1, rest.2)

/-- Modelled from the spec: `list_known_ids(include_deleted)` (§4.1). -/
def list_known_ids (include_deleted : Bool) (store : MessageStore) : List String :=
  (store.filter (fun e => include_deleted || !e.2.is_deleted)).map Prod.fst

/-- Modelled from the spec: `last_run_status` (§3); `partialRun` is the
spec's `partial` (a Lean keyword). -/
inductive RunStatus where
  | clean
  | partialRun
  | failed
deriving Repr, DecidableEq

/-- Modelled from the spec: the singleton `SyncCheckpoint` (§3); a `none`
cursor is the first-run "no cursor" state. -/
structure SyncCheckpoint where
  cursor : Option Nat
  last_full_sync_at : Option Nat
  last_run_status : RunStatus
deriving Repr, DecidableEq

/-- Modelled from the spec: the remote message source (§6).  `position`
is the opaque cursor the listing call returns ("synced up to here"); every
remote-side change advances it. -/
structure RemoteState where
  messages : List (String × MessageContent)
  position : Nat
deriving Repr, DecidableEq

/-- Modelled from the spec: one remote-side mutation (new/changed message
or deletion). -/
inductive RemoteChange where
  | put (id : String) (c : MessageContent)
  | remove (id : String)
deriving Repr, DecidableEq

def applyRemoteChange (r : RemoteState) : RemoteChange → RemoteState
  | RemoteChange.put id c =>
    { messages := (r.messages.filter (fun e => e.1 ≠ id)) ++ [(id, c)]
      position := r.position + 1 }
  | RemoteChange.remove id =>
    { messages := r.messages.filter (fun e => e.1 ≠ id)
      position := r.position + 1 }

/-- The remote store at `r2` is a later state of the one at `r1`. -/
def RemoteEvolves (r1 r2 : RemoteState) : Prop :=
  ∃ cs : List RemoteChange, r2 = cs.foldl applyRemoteChange r1

/-- Modelled from the spec: `list_changed(since=null)` / the full listing
(§6): all current messages together with the`next_cursor` for this pass. -/
def list_all (r : RemoteState) : List (String × MessageContent) × Nat :=
  (r.messages, r.position)

/-- Modelled from the spec: sync mode (§4.3 Planning). -/
inductive SyncMode where
  | full
  | incremental
deriving Repr, DecidableEq

/-- Modelled from the spec: the durable writes a sync run issues, in
order (§4.3, §5): one record write per fetched message, the
reconciliation pass (full mode only), then the single checkpoint commit. -/
inductive SyncOp where
  | writeRecord (id : String) (c : MessageContent)
  | reconcileDeletions (listed : List String)
  | writeCheckpoint (cp : SyncCheckpoint)
deriving Repr, DecidableEq

def SyncOp.isCheckpointWrite : SyncOp → Bool
  | SyncOp.writeCheckpoint _ => true
  | _ => false

/-- Modelled from the spec: the engine's durable state plus the ephemeral
`SyncRun` counters (§3). -/
structure RunState where
  messages : MessageStore
  checkpoint : SyncCheckpoint
  fetched : Nat
  inserted : Nat
  updated : Nat
  deleted_detected : Nat
deriving Repr, DecidableEq

/-- Execute one durable write.  Reconciliation compares the store's known
non-deleted identifiers with the listed ones and passes the absentees to
`mark_deleted` (§4.3 Reconciling). -/
def applyOp (now : Nat) (st : RunState) : SyncOp → RunState
  | SyncOp.writeRecord id c =>
    let r := upsert now id c st.messages
    { st with
      messages := r.1
      fetched := st.fetched + 1
      inserted := st.inserted + (if r.2 = UpsertResult.inserted then 1 else 0)
      updated := st.updated + (if r.2 = UpsertResult.updated then 1 else 0) }
  | SyncOp.reconcileDeletions listed =>
    let absent := (list_known_ids false st.messages).filter (fun i => !listed.contains i)
    let r := mark_deleted now absent st.messages
    { st with messages := r.1, deleted_detected := st.deleted_detected + r.2 }
  | SyncOp.writeCheckpoint cp => { st with checkpoint := cp }

def applyOps (now : Nat) (st : RunState) (ops : List SyncOp) : RunState :=
  ops.foldl (applyOp now) st

/-- The record writes and (in full mode) the reconciliation pass of a
run — everything before the commit. -/
def run_body (mode : SyncMode)
    (listing : List (String × MessageContent)) : List SyncOp :=
  (listing.map (fun e => SyncOp.writeRecord e.1 e.2))
  ++ (match mode with
      | SyncMode.full => [SyncOp.reconcileDeletions (listing.map Prod.fst)]
      | SyncMode.incremental => [])

/-- The checkpoint the commit step writes (§4.3 Committing). -/
def commit_checkpoint (now : Nat) (mode : SyncMode) (next_cursor : Nat)
    (oldCp : SyncCheckpoint) : SyncCheckpoint :=
  { cursor := some next_cursor
    last_full_sync_at :=
      match mode with
      | SyncMode.full => some now
      | SyncMode.incremental => oldCp.last_full_sync_at
    last_run_status := RunStatus.clean }

/-- Modelled from the spec: the write schedule of one sync run over the
listing `(listing, next_cursor)` returned by the remote listing call: the
record writes (in listing order; §5's barrier has drained them all before
anything later), the reconciliation pass only in full mode, and exactly
one checkpoint commit, last, advancing the cursor to `next_cursor` and
stamping `last_full_sync_at` on a full pass (§4.3 Committing). -/
def run_ops (now : Nat) (mode : SyncMode)
    (listing : List (String × MessageContent)) (next_cursor : Nat)
    (oldCp : SyncCheckpoint) : List SyncOp :=
  run_body mode listing
  ++ [SyncOp.writeCheckpoint (commit_checkpoint now mode next_cursor oldCp)]

/-- A fresh `SyncRun` over the given durable state (§3 lifecycle). -/
def startRun (messages : MessageStore) (cp : SyncCheckpoint) : RunState :=
  { messages := messages, checkpoint := cp
    fetched := 0, inserted := 0, updated := 0, deleted_detected := 0 }

/-- Modelled from the spec: one complete sync run (§4.3). -/
def sync_run (now : Nat) (mode : SyncMode)
    (listing : List (String × MessageContent)) (next_cursor : Nat)
    (messages : MessageStore) (cp : SyncCheckpoint) : RunState :=
  applyOps now (startRun messages cp) (run_ops now mode listing next_cursor cp)

/-! ## Theorems -/

/-- C4: for every delivery of SIGINT to the installed handler (`main.py`
installs it with the shared `shutdown_requested` container): when the
shutdown flag is not yet set the handler sets it and returns without
terminating the process; when the flag is already set the handler exits
immediately with status 1, touching neither the flag nor the queued
futures — in particular it performs no commit of any kind (the handler
has no store- or checkpoint-writing path). -/
theorem C4_sigint_handler :
    ∀ hasEF : Bool,
      (handle_sigint (some false) hasEF).shutdown_requested = some true
      ∧ (handle_sigint (some false) hasEF).exitCode = none
      ∧ (handle_sigint (some true) hasEF).exitCode = some 1
      ∧ (handle_sigint (some true) hasEF).shutdown_requested = some true
      ∧ (handle_sigint (some true) hasEF).cancelsPendingFutures = false := by
  decide

/-- C5: for every sync, sync-message or sync-deleted-messages invocation,
`main` acquires credentials before any event that touches the database or
sync state (every event before `getCredentials` in the trace is
state-neutral, and `getCredentials` occurs); when credential acquisition
raises, the trace is exactly prepare-dir, the failed acquisition, and the
failure exit — no fetch, no `db.init`, no sync call. -/
theorem C5_credentials_before_sync_state :
    ∀ (cmd : Command) (credsOk : Bool), cmd ≠ Command.chat →
      MainEvent.getCredentials ∈ mainEvents cmd credsOk
      ∧ (∀ e ∈ (mainEvents cmd credsOk).takeWhile
            (fun e => e ≠ MainEvent.getCredentials),
          e.touchesSyncState = false)
      ∧ (credsOk = false →
          mainEvents cmd credsOk
            = [MainEvent.prepareDataDir, MainEvent.getCredentials,
                MainEvent.exitFailure]) := by
  intro cmd b h
  cases cmd <;> cases b <;> simp_all <;> decide

/-- Witness for C5 at the `sync` command with failing credentials. -/
theorem C5_witness :
    (Command.sync ≠ Command.chat)
    ∧ (MainEvent.getCredentials ∈ mainEvents Command.sync false
      ∧ (∀ e ∈ (mainEvents Command.sync false).takeWhile
            (fun e => e ≠ MainEvent.getCredentials),
          e.touchesSyncState = false)
      ∧ (false = false →
          mainEvents Command.sync false
            = [MainEvent.prepareDataDir, MainEvent.getCredentials,
                MainEvent.exitFailure])) :=
  ⟨by decide, C5_credentials_before_sync_state Command.sync false (by decide)⟩

/-- C6: `mark_deleted` rewrites exactly the rows whose identifier is in
the given set and that are not already flagged — flipping `is_deleted`,
bumping `last_indexed_at` — returns the count of rows so flipped, and is
idempotent: a second invocation with the same set (at any time) changes
no record and returns count 0. -/
theorem C6_mark_deleted_spec :
    ∀ (now : Nat) (ids : List String) (s : MessageStore),
      (mark_deleted now ids s).1
        = s.map (fun e =>
            if e.1 ∈ ids ∧ e.2.is_deleted = false then
              (e.1, { e.2 with is_deleted := true, last_indexed_at := now })
            else e)
      ∧ (mark_deleted now ids s).2
          = s.countP (fun e => decide (e.1 ∈ ids ∧ e.2.is_deleted = false))
      ∧ (∀ now2 : Nat,
          mark_deleted now2 ids (mark_deleted now ids s).1
            = ((mark_deleted now ids s).1, 0)) := by
  intro now ids s
  induction s with
  | nil => exact ⟨rfl, rfl, fun _ => rfl⟩
  | cons e t ih =>
    obtain ⟨i, r⟩ := e
    obtain ⟨ih1, ih2, ih3⟩ := ih
    by_cases h : i ∈ ids ∧ r.is_deleted = false
    · refine ⟨?_, ?_, ?_⟩
      · simp [mark_deleted, h, ih1]
      · simp [mark_deleted, h, ih2]
      · intro now2
        have h2 : ¬ (i ∈ ids ∧
            ({ r with is_deleted := true, last_indexed_at := now }
              : MessageRecord).is_deleted = false) := by
          simp
        simp [mark_deleted, h, h2, ih3 now2]
    · refine ⟨?_, ?_, ?_⟩
      · simp [mark_deleted, h, ih1]
      · simp [mark_deleted, h, ih2]
      · intro now2
        simp [mark_deleted, h, ih3 now2]

/-- C10: `_get_account_data_dir` never returns a missing or empty data
directory; an empty account list raises; with no account name it resolves
the first account's `data_dir` (when present and non-empty); a name
matching no account raises an error naming the available accounts; a
resolved account without `data_dir` raises. -/
theorem C10_get_account_data_dir_spec :
    (∀ accounts name d, get_account_data_dir accounts name = Except.ok d → d ≠ "")
    ∧ (∀ name, get_account_data_dir [] name
        = Except.error AuthenticationError.noAccountsConfigured)
    ∧ (∀ first rest d, first.data_dir = some d → d ≠ "" →
        get_account_data_dir (first :: rest) none = Except.ok d)
    ∧ (∀ first rest, first.data_dir = none →
        get_account_data_dir (first :: rest) none
          = Except.error (AuthenticationError.missingDataDir first.name))
    ∧ (∀ accounts n, (∀ acc ∈ accounts, acc.name ≠ some n) → accounts ≠ [] →
        get_account_data_dir accounts (some n)
          = Except.error
              (AuthenticationError.accountNotFound n (accounts.map Account.name))) := by
  refine ⟨?_, ?_, ?_, ?_, ?_⟩
  · intro accounts name d h
    match accounts with
    | [] => simp [get_account_data_dir] at h
    | first :: rest =>
      unfold get_account_data_dir at h
      dsimp only at h
      split at h
      · exact absurd h (by simp)
      · split at h
        · simp at h
        · split at h
          · simp at h
          · simp only [Except.ok.injEq] at h
            subst h
            simp_all
  · intro name
    rfl
  · intro first rest d hd hne
    unfold get_account_data_dir
    dsimp only
    rw [hd]
    simp [hne]
  · intro first rest hd
    unfold get_account_data_dir
    dsimp only
    rw [hd]
  · intro accounts n hnames hne
    match accounts with
    | [] => exact absurd rfl hne
    | first :: rest =>
      unfold get_account_data_dir
      dsimp only
      have : (first :: rest).find? (fun acc => acc.name = some n) = none := by
        rw [List.find?_eq_none]
        intro acc hacc
        simpa using hnames acc hacc
      rw [this]

/-- Witness for C10: a one-account configuration resolved without a name. -/
theorem C10_witness :
    ((Account.mk (some "work") (some "/data/work")).data_dir = some "/data/work")
    ∧ ("/data/work" ≠ "")
    ∧ get_account_data_dir [Account.mk (some "work") (some "/data/work")] none
        = Except.ok "/data/work" :=
  ⟨rfl, by decide,
    C10_get_account_data_dir_spec.2.2.1 (Account.mk (some "work") (some "/data/work"))
      [] "/data/work" rfl (by decide)⟩

/-- C9: `_execute_sql_query` formatting — an empty result yields exactly
`"No results found."`; with `max_rows = some n` the rendered row lines
are the formatted first `n` rows (so at most `n`, i.e. `min n (number of
rows)`) and the trailing total-row-count line is appended exactly when
the result has more than `n` rows; with `max_rows = none` every row is
rendered and no truncation line is appended; a NULL cell renders as
`"NULL"`; and for a non-empty result with column names the output is the
newline-join of those lines. -/
theorem C9_execute_sql_query_format :
    (∀ mr mfl cols, execute_sql_query mr mfl cols [] = "No results found.")
    ∧ (∀ mfl, formatCell mfl none = "NULL")
    ∧ (∀ (n : Nat) mfl cols results,
        execute_sql_query_lines (some n) mfl cols results
          = headerLines cols ++ (results.take n).map (formatRow mfl)
            ++ (if results.length > n then [truncationLine results.length n] else [])
        ∧ ((results.take n).map (formatRow mfl)).length = min n results.length)
    ∧ (∀ mfl cols results,
        execute_sql_query_lines none mfl cols results
          = headerLines cols ++ results.map (formatRow mfl))
    ∧ (∀ mr mfl cols results, cols ≠ [] → results ≠ ([] : List (List Cell)) →
        execute_sql_query mr mfl cols results
          = String.intercalate "\n"
              (execute_sql_query_lines mr mfl cols results)) := by
  refine ⟨?_, ?_, ?_, ?_, ?_⟩
  · intro mr mfl cols
    simp [execute_sql_query]
  · intro mfl
    rfl
  · intro n mfl cols results
    exact ⟨rfl, by simp⟩
  · intro mfl cols results
    simp [execute_sql_query_lines]
  · intro mr mfl cols results hc hr
    simp [execute_sql_query, hc, hr]

/-- Witness for C9 at a one-column, one-row result. -/
theorem C9_witness :
    (["a"] ≠ ([] : List String))
    ∧ ([[ (none : Cell) ]] ≠ ([] : List (List Cell)))
    ∧ execute_sql_query (some 5) none ["a"] [[none]]
        = String.intercalate "\n"
            (execute_sql_query_lines (some 5) none ["a"] [[none]]) :=
  ⟨by decide, by decide,
    C9_execute_sql_query_format.2.2.2.2 (some 5) none ["a"] [[none]]
      (by decide) (by decide)⟩

/-! ## Helper lemmas for C8: stripping and uppercasing preserve a
non-whitespace prefix -/

lemma pyIsSpace_upper_fixed (c : Char) (h : pyIsSpace c = true) :
    pyUpperChar c = c := by
  simp only [pyIsSpace, Bool.or_eq_true, decide_eq_true_eq] at h
  rcases h with ((((h | h) | h) | h) | h) | h <;> subst h <;> decide

lemma isPrefixOf_append_self (p x : List Char) : p.isPrefixOf (p ++ x) = true := by
  rw [List.isPrefixOf_iff_prefix]
  exact List.prefix_append p x

/-- Stripping a string of the form `whitespace ++ p ++ m` (with `p`
non-empty and whitespace-free) keeps `p` in front. -/
lemma pyStrip_shape (w p m : List Char) (hw : ∀ c ∈ w, pyIsSpace c = true)
    (hp0 : p ≠ []) (hp : ∀ c ∈ p, pyIsSpace c = false) :
    pyStrip (w ++ p ++ m) = p ++ (m.reverse.dropWhile pyIsSpace).reverse := by
  obtain ⟨c, p', rfl⟩ : ∃ c p', p = c :: p' := by
    cases p with
    | nil => exact absurd rfl hp0
    | cons c p' => exact ⟨c, p', rfl⟩
  have hfront : ((w ++ (c :: p') ++ m).dropWhile pyIsSpace) = (c :: p') ++ m := by
    rw [List.append_assoc, List.dropWhile_append_of_pos hw]
    have : pyIsSpace c = false := hp c (List.mem_cons_self c p')
    simp [List.dropWhile_cons, this]
  unfold pyStrip
  rw [hfront]
  have hrev : ((c :: p') ++ m).reverse = m.reverse ++ (c :: p').reverse := by
    simp
  rw [hrev, List.dropWhile_append]
  by_cases hcase : (m.reverse.dropWhile pyIsSpace).isEmpty
  · have hlast : (c :: p').reverse.dropWhile pyIsSpace = (c :: p').reverse := by
      have : ∃ d t, (c :: p').reverse = d :: t ∧ pyIsSpace d = false := by
        have hne : (c :: p').reverse ≠ [] := by simp
        cases hrv : (c :: p').reverse with
        | nil => exact absurd hrv hne
        | cons d t =>
          refine ⟨d, t, rfl, ?_⟩
          have : d ∈ (c :: p').reverse := by rw [hrv]; exact List.mem_cons_self d t
          exact hp d (List.mem_reverse.mp this)
      obtain ⟨d, t, hdt, hd⟩ := this
      rw [hdt]
      simp [List.dropWhile_cons, hd]
    rw [if_pos hcase, hlast, List.reverse_reverse]
    have : m.reverse.dropWhile pyIsSpace = [] := by
      simpa [List.isEmpty_iff] using hcase
    simp [this]
  · rw [if_neg hcase]
    simp

/-- Uppercasing then stripping keeps a non-whitespace prefix that is
already present after uppercasing alone (used for the validated LLM
response, which is stripped before execution). -/
lemma prefix_upper_strip (P l : List Char) (hP : P ≠ [])
    (hPnw : ∀ c ∈ P, pyIsSpace c = false)
    (h : P.isPrefixOf (pyUpper l) = true) :
    P.isPrefixOf (pyUpper (pyStrip l)) = true := by
  rw [List.isPrefixOf_iff_prefix] at h
  obtain ⟨t, ht⟩ := h
  have ht' : List.map pyUpperChar l = P ++ t := ht.symm
  obtain ⟨l1, l2, rfl, hl1, _⟩ := List.map_eq_append_iff.mp ht'
  have hl1nw : ∀ c ∈ l1, pyIsSpace c = false := by
    intro c hc
    by_contra hcon
    have hws : pyIsSpace c = true := by
      cases hx : pyIsSpace c with
      | false => exact absurd hx hcon
      | true => rfl
    have hfix : pyUpperChar c = c := pyIsSpace_upper_fixed c hws
    have hmem : pyUpperChar c ∈ P := by
      rw [← hl1]
      exact List.mem_map_of_mem pyUpperChar hc
    rw [hfix] at hmem
    rw [hPnw c hmem] at hws
    exact Bool.false_ne_true hws
  have hl1ne : l1 ≠ [] := by
    intro hnil
    rw [hnil] at hl1
    exact hP (hl1.symm)
  have := pyStrip_shape [] l1 l2 (by intro c hc; cases hc) hl1ne hl1nw
  simp only [List.nil_append] at this
  rw [this]
  unfold pyUpper
  rw [List.map_append, ← hl1]
  exact isPrefixOf_append_self _ _

/-- The stripped uppercase of `head ++ rest` starts with `SELECT`
whenever the whitespace-stripped head does. -/
lemma startsSelect_data (l1 r : List Char)
    (h : "SELECT".data.isPrefixOf (l1.dropWhile pyIsSpace) = true) :
    "SELECT".data.isPrefixOf (pyUpper (pyStrip (l1 ++ r))) = true := by
  rw [List.isPrefixOf_iff_prefix] at h
  obtain ⟨t, ht⟩ := h
  have hsplit : l1 ++ r
      = l1.takeWhile pyIsSpace ++ "SELECT".data ++ (t ++ r) := by
    conv_lhs => rw [← List.takeWhile_append_dropWhile pyIsSpace l1]
    rw [← ht]
    simp [List.append_assoc]
  rw [hsplit, pyStrip_shape _ _ _
    (fun c hc => List.mem_takeWhile_imp hc) (by decide) (by decide)]
  unfold pyUpper
  rw [List.map_append]
  have hup : pyUpper "SELECT".data = "SELECT".data := by decide
  unfold pyUpper at hup
  rw [hup]
  exact isPrefixOf_append_self _ _

/-! Every query text the fallback produces starts, after stripping, with
`SELECT`. -/

set_option maxRecDepth 4096

lemma labelQuery_select (lbl yf : String) :
    "SELECT".data.isPrefixOf (pyUpper (pyStrip (labelQuery lbl yf).data)) = true := by
  simp only [labelQuery, String.data_append, List.append_assoc]
  exact startsSelect_data _ _ (by decide)

lemma volumeByMonthQuery_select (yf : String) :
    "SELECT".data.isPrefixOf (pyUpper (pyStrip (volumeByMonthQuery yf).data)) = true := by
  simp only [volumeByMonthQuery, String.data_append, List.append_assoc]
  exact startsSelect_data _ _ (by decide)

lemma threadParticipantsQuery_select (yf : String) :
    "SELECT".data.isPrefixOf
      (pyUpper (pyStrip (threadParticipantsQuery yf).data)) = true := by
  simp only [threadParticipantsQuery, String.data_append, List.append_assoc]
  exact startsSelect_data _ _ (by decide)

lemma responseTimeQuery_select (yf : String) :
    "SELECT".data.isPrefixOf (pyUpper (pyStrip (responseTimeQuery yf).data)) = true := by
  simp only [responseTimeQuery, String.data_append, List.append_assoc]
  exact startsSelect_data _ _ (by decide)

lemma dayOfWeekHourQuery_select (yf : String) :
    "SELECT".data.isPrefixOf (pyUpper (pyStrip (dayOfWeekHourQuery yf).data)) = true := by
  simp only [dayOfWeekHourQuery, String.data_append, List.append_assoc]
  exact startsSelect_data _ _ (by decide)

lemma topSendersQuery_select (yf : String) :
    "SELECT".data.isPrefixOf (pyUpper (pyStrip (topSendersQuery yf).data)) = true := by
  simp only [topSendersQuery, String.data_append, List.append_assoc]
  exact startsSelect_data _ _ (by decide)

lemma unreadQuery_select (yf : String) :
    "SELECT".data.isPrefixOf (pyUpper (pyStrip (unreadQuery yf).data)) = true := by
  simp only [unreadQuery, String.data_append, List.append_assoc]
  exact startsSelect_data _ _ (by decide)

lemma lastWeekQuery_select (yf : String) :
    "SELECT".data.isPrefixOf (pyUpper (pyStrip (lastWeekQuery yf).data)) = true := by
  simp only [lastWeekQuery, String.data_append, List.append_assoc]
  exact startsSelect_data _ _ (by decide)

lemma defaultQuery_select (yf : String) :
    "SELECT".data.isPrefixOf (pyUpper (pyStrip (defaultQuery yf).data)) = true := by
  simp only [defaultQuery, String.data_append, List.append_assoc]
  exact startsSelect_data _ _ (by decide)

/-- Any query string the pattern-matching fallback produces starts, after
stripping and uppercasing, with `SELECT`. -/
lemma fallback_select (q s : String)
    (h : fallback_pattern_matching q = some s) :
    "SELECT".data.isPrefixOf (pyUpper (pyStrip s.data)) = true := by
  unfold fallback_pattern_matching at h
  simp only [] at h
  split at h
  · split at h
    · injection h with h2
      rw [← h2]
      exact labelQuery_select _ _
    · cases h
  · split at h
    · injection h with h2
      rw [← h2]
      exact volumeByMonthQuery_select _
    · split at h
      · injection h with h2
        rw [← h2]
        exact threadParticipantsQuery_select _
      · split at h
        · injection h with h2
          rw [← h2]
          exact responseTimeQuery_select _
        · split at h
          · injection h with h2
            rw [← h2]
            exact dayOfWeekHourQuery_select _
          · split at h
            · injection h with h2
              rw [← h2]
              exact topSendersQuery_select _
            · split at h
              · injection h with h2
                rw [← h2]
                exact unreadQuery_select _
              · split at h
                · injection h with h2
                  rw [← h2]
                  exact lastWeekQuery_select _
                · injection h with h2
                  rw [← h2]
                  exact defaultQuery_select _

/-- C8 (amended): for every tool input that is not SQL-prefixed (the
natural-language path), any SQL string the tool selects for execution
starts, after stripping and uppercasing, with `SELECT` or `WITH`: the
LLM path validates exactly this and otherwise falls back, and every query
string the pattern-matching fallback produces is a `SELECT`.  (On some
natural-language inputs the fallback produces no query at all — see the
counterexample — and then nothing is executed.) -/
theorem C8_nl_path_select_only :
    ∀ (llm : Option (Except Unit String)) (query s : String),
      isSqlInput query = false →
      run_selected_sql llm query = some s →
      ("SELECT".data.isPrefixOf (pyUpper (pyStrip s.data))
        || "WITH".data.isPrefixOf (pyUpper (pyStrip s.data))) = true := by
  intro llm query s hn hr
  unfold run_selected_sql at hr
  rw [hn] at hr
  simp only [Bool.false_eq_true, if_false] at hr
  cases llm with
  | none =>
    simp only [intelligent_sql_generation] at hr
    rw [fallback_select query s hr]
    rfl
  | some res =>
    cases res with
    | error e =>
      simp only [intelligent_sql_generation] at hr
      rw [fallback_select query s hr]
      rfl
    | ok response =>
      simp only [intelligent_sql_generation] at hr
      split at hr
      · rename_i hcond
        injection hr with h2
        rw [← h2]
        rcases Bool.or_eq_true _ _ |>.mp hcond with hsel | hwit
        · have : "SELECT".data.isPrefixOf
              (pyUpper (pyStrip (pyStripS response).data)) = true := by
            apply prefix_upper_strip _ _ (by decide) (by decide)
            exact hsel
          rw [this]
          rfl
        · have : "WITH".data.isPrefixOf
              (pyUpper (pyStrip (pyStripS response).data)) = true := by
            apply prefix_upper_strip _ _ (by decide) (by decide)
            exact hwit
          rw [this]
          simp
      · rw [fallback_select query s hr]
        rfl

/-- C8 counterexample: on the natural-language input
`"messages with attachments"` the first fallback branch is taken (the
question contains `with`), every label-extraction attempt fails, and the
fallback returns Python `None` — so the tool selects no SQL string at
all, and in particular no `SELECT`/`WITH`-prefixed one, refuting the
claim as stated for this input. -/
theorem C8_counterexample :
    isSqlInput "messages with attachments" = false
    ∧ fallback_pattern_matching "messages with attachments" = none
    ∧ run_selected_sql none "messages with attachments" = none := by
  refine ⟨by decide, by decide, by decide⟩

/-- Witness for C8 at the no-LLM tool and the question `"unread"`. -/
theorem C8_witness :
    (isSqlInput "unread" = false)
    ∧ (run_selected_sql none "unread" = some (unreadQuery ""))
    ∧ (("SELECT".data.isPrefixOf (pyUpper (pyStrip (unreadQuery "").data))
        || "WITH".data.isPrefixOf (pyUpper (pyStrip (unreadQuery "").data))) = true) :=
  ⟨by decide, by decide,
    C8_nl_path_select_only none "unread" (unreadQuery "") (by decide) (by decide)⟩

/-! ## Helper lemmas for the sync-engine claims -/

lemma applyOp_checkpoint (now : Nat) (st : RunState) (op : SyncOp)
    (h : op.isCheckpointWrite = false) :
    (applyOp now st op).checkpoint = st.checkpoint := by
  cases op with
  | writeRecord id c => rfl
  | reconcileDeletions listed => rfl
  | writeCheckpoint cp => simp [SyncOp.isCheckpointWrite] at h

lemma applyOps_checkpoint (now : Nat) (ops : List SyncOp)
    (h : ∀ op ∈ ops, op.isCheckpointWrite = false) :
    ∀ st : RunState, (applyOps now st ops).checkpoint = st.checkpoint := by
  induction ops with
  | nil => intro st; rfl
  | cons op rest ih =>
    intro st
    have h1 : op.isCheckpointWrite = false := h op (List.mem_cons_self op rest)
    have h2 : ∀ o ∈ rest, o.isCheckpointWrite = false :=
      fun o ho => h o (List.mem_cons_of_mem op ho)
    calc (applyOps now st (op :: rest)).checkpoint
        = (applyOps now (applyOp now st op) rest).checkpoint := rfl
      _ = (applyOp now st op).checkpoint := ih h2 _
      _ = st.checkpoint := applyOp_checkpoint now st op h1

lemma run_ops_body_no_checkpoint (mode : SyncMode)
    (listing : List (String × MessageContent)) :
    ∀ op ∈ run_body mode listing, op.isCheckpointWrite = false := by
  intro op hop
  unfold run_body at hop
  rcases List.mem_append.mp hop with hA | hB
  · obtain ⟨e, _, rfl⟩ := List.mem_map.mp hA
    rfl
  · cases mode with
    | full =>
      have : op = SyncOp.reconcileDeletions (listing.map Prod.fst) := by
        simpa using hB
      rw [this]
      rfl
    | incremental => simp at hB

/-- C1: the write schedule of every sync run contains exactly one
checkpoint write; it is the last operation, strictly after every record
write of the run; and a crash executing any proper prefix of the
schedule (some record upserts done, checkpoint commit not reached)
leaves the checkpoint at its previous value. -/
theorem C1_checkpoint_once_and_last :
    ∀ (now : Nat) (mode : SyncMode) (listing : List (String × MessageContent))
      (next_cursor : Nat) (cp : SyncCheckpoint),
      ((run_ops now mode listing next_cursor cp).countP SyncOp.isCheckpointWrite = 1)
      ∧ (∃ cpNew, (run_ops now mode listing next_cursor cp).getLast?
          = some (SyncOp.writeCheckpoint cpNew))
      ∧ (∀ op ∈ (run_ops now mode listing next_cursor cp).dropLast,
          op.isCheckpointWrite = false)
      ∧ (∀ (messages : MessageStore) (cp0 : SyncCheckpoint) (k : Nat),
          k < (run_ops now mode listing next_cursor cp).length →
          (applyOps now (startRun messages cp0)
              ((run_ops now mode listing next_cursor cp).take k)).checkpoint = cp0) := by
  intro now mode listing next_cursor cp
  have hbody := run_ops_body_no_checkpoint mode listing
  refine ⟨?_, ?_, ?_, ?_⟩
  · unfold run_ops
    rw [List.countP_append]
    have h0 : (run_body mode listing).countP SyncOp.isCheckpointWrite = 0 := by
      rw [List.countP_eq_zero]
      intro op hop
      simp [hbody op hop]
    rw [h0]
    rfl
  · exact ⟨_, List.getLast?_concat _⟩
  · unfold run_ops
    rw [List.dropLast_concat]
    exact hbody
  · intro messages cp0 k hk
    unfold run_ops at hk ⊢
    rw [List.length_append, List.length_cons, List.length_nil] at hk
    have hk' : k ≤ (run_body mode listing).length := by omega
    rw [List.take_append_of_le_length hk']
    exact applyOps_checkpoint now _
      (fun op hop => hbody op (List.take_subset k _ hop)) _

/-- Witness for C1: a one-message full run crashing just before the
commit (prefix of length 1 of the 3-operation schedule). -/
theorem C1_witness :
    (1 < (run_ops 0 SyncMode.full
        [("a", MessageContent.mk "t" (Address.mk "n" "e") [] [] [] [] none none 0 0
          false false)] 0
        (SyncCheckpoint.mk none none RunStatus.clean)).length)
    ∧ (applyOps 0 (startRun [] (SyncCheckpoint.mk (some 9) none RunStatus.clean))
        ((run_ops 0 SyncMode.full
          [("a", MessageContent.mk "t" (Address.mk "n" "e") [] [] [] [] none none 0 0
            false false)] 0
          (SyncCheckpoint.mk none none RunStatus.clean)).take 1)).checkpoint
      = SyncCheckpoint.mk (some 9) none RunStatus.clean :=
  ⟨by decide,
    (C1_checkpoint_once_and_last 0 SyncMode.full
      [("a", MessageContent.mk "t" (Address.mk "n" "e") [] [] [] [] none none 0 0
        false false)] 0 (SyncCheckpoint.mk none none RunStatus.clean)).2.2.2
      [] (SyncCheckpoint.mk (some 9) none RunStatus.clean) 1 (by decide)⟩

/-! Upsert and fetch-fold lemmas. -/

lemma lookupMsg_cons (e : String × MessageRecord) (t : MessageStore) (id : String) :
    lookupMsg (e :: t) id = if e.1 = id then some e.2 else lookupMsg t id := by
  by_cases h : e.1 = id <;> simp [lookupMsg, h]

lemma upsert_cons_same (now : Nat) (id : String) (c : MessageContent)
    (e : String × MessageRecord) (t : MessageStore) (h1 : e.1 = id) :
    upsert now id c (e :: t)
      = if e.2.content = c ∧ e.2.is_deleted = false then (e :: t, UpsertResult.unchanged)
        else ((id, { content := c, is_deleted := false, last_indexed_at := now }) :: t,
          UpsertResult.updated) := by
  simp [upsert, h1]

lemma upsert_cons_other (now : Nat) (id : String) (c : MessageContent)
    (e : String × MessageRecord) (t : MessageStore) (h1 : ¬ e.1 = id) :
    upsert now id c (e :: t)
      = (e :: (upsert now id c t).1, (upsert now id c t).2) := by
  simp [upsert, h1]

lemma upsert_lookup_self (now : Nat) (id : String) (c : MessageContent) :
    ∀ s : MessageStore,
      ∃ r, lookupMsg (upsert now id c s).1 id = some r
        ∧ r.content = c ∧ r.is_deleted = false := by
  intro s
  induction s with
  | nil =>
    refine ⟨⟨c, false, now⟩, ?_, rfl, rfl⟩
    simp [upsert, lookupMsg]
  | cons e t ih =>
    by_cases h1 : e.1 = id
    · rw [upsert_cons_same now id c e t h1]
      by_cases h2 : e.2.content = c ∧ e.2.is_deleted = false
      · refine ⟨e.2, ?_, h2.1, h2.2⟩
        rw [if_pos h2]
        simp [lookupMsg_cons, h1]
      · refine ⟨⟨c, false, now⟩, ?_, rfl, rfl⟩
        rw [if_neg h2]
        simp [lookupMsg_cons]
    · rw [upsert_cons_other now id c e t h1]
      obtain ⟨r, hr, hc, hd⟩ := ih
      refine ⟨r, ?_, hc, hd⟩
      rw [lookupMsg_cons, if_neg h1]
      exact hr

lemma upsert_lookup_other (now : Nat) (id : String) (c : MessageContent)
    (id' : String) (h : id' ≠ id) :
    ∀ s : MessageStore,
      lookupMsg (upsert now id c s).1 id' = lookupMsg s id' := by
  intro s
  induction s with
  | nil => simp [upsert, lookupMsg, Ne.symm h]
  | cons e t ih =>
    by_cases h1 : e.1 = id
    · rw [upsert_cons_same now id c e t h1]
      by_cases h2 : e.2.content = c ∧ e.2.is_deleted = false
      · rw [if_pos h2]
      · rw [if_neg h2]
        have hne : ¬ (id = id') := fun hc => h hc.symm
        have hne2 : ¬ (e.1 = id') := by rw [h1]; exact hne
        rw [lookupMsg_cons, lookupMsg_cons]
        simp only [hne2, if_false]
        simp [hne]
    · rw [upsert_cons_other now id c e t h1]
      rw [lookupMsg_cons, lookupMsg_cons]
      by_cases h3 : e.1 = id'
      · simp [h3]
      · simp only [h3, if_false]
        exact ih

lemma upsert_unchanged_of_lookup (now : Nat) (id : String) (c : MessageContent) :
    ∀ s : MessageStore, ∀ r : MessageRecord,
      lookupMsg s id = some r → r.content = c → r.is_deleted = false →
      upsert now id c s = (s, UpsertResult.unchanged) := by
  intro s
  induction s with
  | nil => intro r hr _ _; simp [lookupMsg] at hr
  | cons e t ih =>
    intro r hr hc hd
    rw [lookupMsg_cons] at hr
    by_cases h1 : e.1 = id
    · rw [if_pos h1] at hr
      have he : e.2 = r := by injection hr
      have h2 : e.2.content = c ∧ e.2.is_deleted = false := by
        rw [he]; exact ⟨hc, hd⟩
      rw [upsert_cons_same now id c e t h1, if_pos h2]
    · rw [if_neg h1] at hr
      rw [upsert_cons_other now id c e t h1, ih r hr hc hd]

lemma applyOps_fetch_lookup_not_mem (now : Nat) :
    ∀ (L : List (String × MessageContent)) (st : RunState) (id : String),
      id ∉ L.map Prod.fst →
      lookupMsg (applyOps now st
          (L.map (fun e => SyncOp.writeRecord e.1 e.2))).messages id
        = lookupMsg st.messages id := by
  intro L
  induction L with
  | nil => intro st id _; rfl
  | cons e t ih =>
    intro st id hid
    have hid1 : id ≠ e.1 := by
      intro hcon
      exact hid (by rw [hcon]; exact List.mem_map_of_mem Prod.fst (List.mem_cons_self e t))
    have hid2 : id ∉ t.map Prod.fst := by
      intro hcon
      exact hid (List.mem_cons_of_mem _ hcon)
    calc lookupMsg (applyOps now st
          ((e :: t).map (fun e => SyncOp.writeRecord e.1 e.2))).messages id
        = lookupMsg (applyOps now (applyOp now st (SyncOp.writeRecord e.1 e.2))
            (t.map (fun e => SyncOp.writeRecord e.1 e.2))).messages id := rfl
      _ = lookupMsg (applyOp now st (SyncOp.writeRecord e.1 e.2)).messages id :=
          ih _ id hid2
      _ = lookupMsg st.messages id := upsert_lookup_other now e.1 e.2 id hid1 _

lemma applyOps_fetch_lookup_mem (now : Nat) :
    ∀ (L : List (String × MessageContent)) (st : RunState)
      (id : String) (c : MessageContent),
      (L.map Prod.fst).Nodup → (id, c) ∈ L →
      ∃ r, lookupMsg (applyOps now st
          (L.map (fun e => SyncOp.writeRecord e.1 e.2))).messages id = some r
        ∧ r.content = c ∧ r.is_deleted = false := by
  intro L
  induction L with
  | nil => intro st id c _ hm; cases hm
  | cons p t ih =>
    intro st id c hnd hm
    rw [List.map_cons, List.nodup_cons] at hnd
    rcases List.mem_cons.mp hm with hm | hm
    · subst hm
      obtain ⟨r, hr, hc, hd⟩ :=
        upsert_lookup_self now (id, c).1 (id, c).2 st.messages
      refine ⟨r, ?_, hc, hd⟩
      have hnot : (id, c).1 ∉ t.map Prod.fst := hnd.1
      have hstep :
          lookupMsg (applyOps now (applyOp now st (SyncOp.writeRecord (id, c).1 (id, c).2))
              (t.map (fun x => SyncOp.writeRecord x.1 x.2))).messages (id, c).1
            = lookupMsg (applyOp now st
                (SyncOp.writeRecord (id, c).1 (id, c).2)).messages (id, c).1 :=
        applyOps_fetch_lookup_not_mem now t _ (id, c).1 hnot
      exact hstep.trans hr
    · exact ih _ id c hnd.2 hm

lemma applyOps_fetch_noop (now : Nat) :
    ∀ (L : List (String × MessageContent)) (st : RunState),
      (∀ p ∈ L, ∃ r, lookupMsg st.messages p.1 = some r
          ∧ r.content = p.2 ∧ r.is_deleted = false) →
      applyOps now st (L.map (fun e => SyncOp.writeRecord e.1 e.2))
        = { st with fetched := st.fetched + L.length } := by
  intro L
  induction L with
  | nil => intro st _; simp [applyOps]
  | cons e t ih =>
    intro st h
    obtain ⟨r, hr, hc, hd⟩ := h e (List.mem_cons_self e t)
    have hup : upsert now e.1 e.2 st.messages = (st.messages, UpsertResult.unchanged) :=
      upsert_unchanged_of_lookup now e.1 e.2 st.messages r hr hc hd
    have hstep : applyOp now st (SyncOp.writeRecord e.1 e.2)
        = { st with fetched := st.fetched + 1 } := by
      simp [applyOp, hup]
    calc applyOps now st ((e :: t).map (fun x => SyncOp.writeRecord x.1 x.2))
        = applyOps now (applyOp now st (SyncOp.writeRecord e.1 e.2))
            (t.map (fun x => SyncOp.writeRecord x.1 x.2)) := rfl
      _ = applyOps now { st with fetched := st.fetched + 1 }
            (t.map (fun x => SyncOp.writeRecord x.1 x.2)) := by rw [hstep]
      _ = { st with fetched := st.fetched + 1 + t.length } := by
          refine ih _ ?_
          intro p hp
          exact h p (List.mem_cons_of_mem e hp)
      _ = { st with fetched := st.fetched + (e :: t).length } := by
          simp [List.length_cons]
          omega

lemma applyOps_fetch_deleted_before (now : Nat) :
    ∀ (L : List (String × MessageContent)) (st : RunState)
      (id : String) (r' : MessageRecord),
      lookupMsg (applyOps now st
          (L.map (fun e => SyncOp.writeRecord e.1 e.2))).messages id = some r' →
      r'.is_deleted = true →
      ∃ r, lookupMsg st.messages id = some r ∧ r.is_deleted = true := by
  intro L
  induction L with
  | nil => intro st id r' h hd; exact ⟨r', h, hd⟩
  | cons e t ih =>
    intro st id r' h hd
    obtain ⟨r, hr, hrd⟩ := ih (applyOp now st (SyncOp.writeRecord e.1 e.2)) id r' h hd
    by_cases h1 : id = e.1
    · obtain ⟨r0, hr0, _, hd0⟩ := upsert_lookup_self now e.1 e.2 st.messages
      rw [h1] at hr
      have hrr : r = r0 := by
        have hsome : some r = some r0 := hr.symm.trans hr0
        injection hsome
      rw [hrr, hd0] at hrd
      cases hrd
    · refine ⟨r, ?_, hrd⟩
      rw [← upsert_lookup_other now e.1 e.2 id h1 st.messages]
      exact hr

/-! Mark-deleted lemmas. -/

lemma mark_deleted_eq_map (now : Nat) (ids : List String) :
    ∀ s : MessageStore,
      (mark_deleted now ids s).1
        = s.map (fun e =>
            if e.1 ∈ ids ∧ e.2.is_deleted = false then
              (e.1, { e.2 with is_deleted := true, last_indexed_at := now })
            else e) := by
  intro s
  induction s with
  | nil => rfl
  | cons e t ih =>
    obtain ⟨i, r⟩ := e
    by_cases h : i ∈ ids ∧ r.is_deleted = false
    · simp [mark_deleted, h, ih]
    · simp [mark_deleted, h, ih]

lemma mark_deleted_lookup (now : Nat) (ids : List String) (id : String) :
    ∀ s : MessageStore,
      lookupMsg (mark_deleted now ids s).1 id
        = (lookupMsg s id).map (fun r =>
            if id ∈ ids ∧ r.is_deleted = false then
              { r with is_deleted := true, last_indexed_at := now }
            else r) := by
  intro s
  induction s with
  | nil => rfl
  | cons e t ih =>
    obtain ⟨i, r⟩ := e
    by_cases h1 : i = id
    · subst h1
      by_cases h : i ∈ ids ∧ r.is_deleted = false
      · simp [mark_deleted, h, lookupMsg]
      · simp [mark_deleted, h, lookupMsg]
    · by_cases h : i ∈ ids ∧ r.is_deleted = false
      · simp only [mark_deleted, if_pos h]
        simpa [lookupMsg, h1] using ih
      · simp only [mark_deleted, if_neg h]
        simpa [lookupMsg, h1] using ih

lemma mark_deleted_nil_ids (now : Nat) :
    ∀ s : MessageStore, mark_deleted now [] s = (s, 0) := by
  intro s
  induction s with
  | nil => rfl
  | cons e t ih =>
    obtain ⟨i, r⟩ := e
    simp [mark_deleted, ih]

lemma mem_list_known_ids (store : MessageStore) (id : String) :
    id ∈ list_known_ids false store
      ↔ ∃ r, (id, r) ∈ store ∧ r.is_deleted = false := by
  constructor
  · intro h
    obtain ⟨⟨i, r⟩, he, heq⟩ := List.mem_map.mp h
    rw [List.mem_filter] at he
    simp only at heq
    subst heq
    refine ⟨r, he.1, ?_⟩
    simpa using he.2
  · intro ⟨r, hmem, hdel⟩
    apply List.mem_map.mpr
    refine ⟨(id, r), ?_, rfl⟩
    rw [List.mem_filter]
    exact ⟨hmem, by simp [hdel]⟩

/-! Run decomposition lemmas. -/

lemma sync_run_full_decomp (now : Nat) (L : List (String × MessageContent))
    (p : Nat) (ms : MessageStore) (cp : SyncCheckpoint) :
    sync_run now SyncMode.full L p ms cp
      = applyOp now
          (applyOp now
            (applyOps now (startRun ms cp)
              (L.map (fun e => SyncOp.writeRecord e.1 e.2)))
            (SyncOp.reconcileDeletions (L.map Prod.fst)))
          (SyncOp.writeCheckpoint (commit_checkpoint now SyncMode.full p cp)) := by
  unfold sync_run run_ops run_body applyOps
  rw [List.foldl_append, List.foldl_append]
  rfl

lemma sync_run_incr_decomp (now : Nat) (L : List (String × MessageContent))
    (p : Nat) (ms : MessageStore) (cp : SyncCheckpoint) :
    sync_run now SyncMode.incremental L p ms cp
      = applyOp now
          (applyOps now (startRun ms cp)
            (L.map (fun e => SyncOp.writeRecord e.1 e.2)))
          (SyncOp.writeCheckpoint
            (commit_checkpoint now SyncMode.incremental p cp)) := by
  unfold sync_run run_ops run_body applyOps
  rw [List.foldl_append, List.foldl_append]
  rfl

lemma sync_run_checkpoint (now : Nat) (mode : SyncMode)
    (L : List (String × MessageContent)) (p : Nat)
    (ms : MessageStore) (cp : SyncCheckpoint) :
    (sync_run now mode L p ms cp).checkpoint
      = commit_checkpoint now mode p cp := by
  unfold sync_run run_ops applyOps
  rw [List.foldl_append]
  rfl

/-- C2: running a full sync twice in a row over the same remote listing
(remote unchanged, identifiers distinct) makes the second run a no-op on
the messages table: zero inserts, zero updates, and the stored rows are
unchanged. -/
theorem C2_full_sync_idempotent :
    ∀ (now1 now2 : Nat) (L : List (String × MessageContent)) (p1 p2 : Nat)
      (ms : MessageStore) (cp : SyncCheckpoint),
      (L.map Prod.fst).Nodup →
      (sync_run now2 SyncMode.full L p2
          (sync_run now1 SyncMode.full L p1 ms cp).messages
          (sync_run now1 SyncMode.full L p1 ms cp).checkpoint).inserted = 0
      ∧ (sync_run now2 SyncMode.full L p2
          (sync_run now1 SyncMode.full L p1 ms cp).messages
          (sync_run now1 SyncMode.full L p1 ms cp).checkpoint).updated = 0
      ∧ (sync_run now2 SyncMode.full L p2
          (sync_run now1 SyncMode.full L p1 ms cp).messages
          (sync_run now1 SyncMode.full L p1 ms cp).checkpoint).messages
        = (sync_run now1 SyncMode.full L p1 ms cp).messages := by
  intro now1 now2 L p1 p2 ms cp hnd
  -- run 1: name the post-fetch state and the reconciled store
  rw [sync_run_full_decomp now1 L p1 ms cp]
  set stF := applyOps now1 (startRun ms cp)
    (L.map (fun e => SyncOp.writeRecord e.1 e.2)) with hstF
  set absent1 := (list_known_ids false stF.messages).filter
    (fun i => !(L.map Prod.fst).contains i) with habsent1
  have hS1 :
      (applyOp now1
        (applyOp now1 stF (SyncOp.reconcileDeletions (L.map Prod.fst)))
        (SyncOp.writeCheckpoint
          (commit_checkpoint now1 SyncMode.full p1 cp))).messages
      = (mark_deleted now1 absent1 stF.messages).1 := rfl
  rw [hS1]
  set S1 := (mark_deleted now1 absent1 stF.messages).1 with hS1def
  -- every listed pair is live in S1 with its listed content
  have fact1 : ∀ q ∈ L, ∃ r, lookupMsg S1 q.1 = some r
      ∧ r.content = q.2 ∧ r.is_deleted = false := by
    intro q hq
    have hqL : (q.1, q.2) ∈ L := by
      rw [Prod.mk.eta]
      exact hq
    obtain ⟨r, hr, hc, hd⟩ :=
      applyOps_fetch_lookup_mem now1 L (startRun ms cp) q.1 q.2 hnd hqL
    have hnot : q.1 ∉ absent1 := by
      rw [habsent1]
      intro hmem
      rw [List.mem_filter] at hmem
      have : q.1 ∈ L.map Prod.fst := List.mem_map_of_mem Prod.fst hq
      simp [List.contains, List.elem_eq_mem, this] at hmem
    refine ⟨r, ?_, hc, hd⟩
    rw [hS1def, mark_deleted_lookup, hr]
    simp [hnot]
  -- every live identifier of S1 is a listed identifier
  have fact2 : ∀ i r, (i, r) ∈ S1 → r.is_deleted = false → i ∈ L.map Prod.fst := by
    intro i r hmem hdel
    rw [hS1def, mark_deleted_eq_map] at hmem
    obtain ⟨⟨i0, r0⟩, hmem0, heq⟩ := List.mem_map.mp hmem
    by_cases hc : i0 ∈ absent1 ∧ r0.is_deleted = false
    · rw [if_pos hc] at heq
      have : r.is_deleted = true := by
        have h2 : ({ r0 with is_deleted := true, last_indexed_at := now1 }
            : MessageRecord) = r := by
          have := congrArg Prod.snd heq
          simpa using this
        rw [← h2]
      rw [this] at hdel
      cases hdel
    · rw [if_neg hc] at heq
      injection heq with hi hr
      have hdel0 : r0.is_deleted = false := by rw [hr]; exact hdel
      have hknown : i0 ∈ list_known_ids false stF.messages :=
        (mem_list_known_ids stF.messages i0).mpr ⟨r0, hmem0, hdel0⟩
      rw [← hi]
      by_contra hnotL
      apply hc
      refine ⟨?_, hdel0⟩
      rw [habsent1, List.mem_filter]
      refine ⟨hknown, ?_⟩
      simp [List.contains, List.elem_eq_mem, hnotL]
  -- run 2: the fetch pass is a no-op on the store and the counters
  rw [sync_run_full_decomp]
  set cp1 := (applyOp now1
      (applyOp now1 stF (SyncOp.reconcileDeletions (L.map Prod.fst)))
      (SyncOp.writeCheckpoint
        (commit_checkpoint now1 SyncMode.full p1 cp))).checkpoint
  have hfetch2 : applyOps now2 (startRun S1 cp1)
      (L.map (fun e => SyncOp.writeRecord e.1 e.2))
      = { startRun S1 cp1 with fetched := (startRun S1 cp1).fetched + L.length } := by
    apply applyOps_fetch_noop
    intro q hq
    exact fact1 q hq
  rw [hfetch2]
  -- run 2: the reconciliation pass finds nothing to flag
  have habsent2 : (list_known_ids false S1).filter
      (fun i => !(L.map Prod.fst).contains i) = [] := by
    rw [List.filter_eq_nil_iff]
    intro i hi
    obtain ⟨r, hmem, hdel⟩ := (mem_list_known_ids S1 i).mp hi
    have : i ∈ L.map Prod.fst := fact2 i r hmem hdel
    simp [List.contains, List.elem_eq_mem, this]
  refine ⟨?_, ?_, ?_⟩
  · simp [applyOp, startRun]
  · simp [applyOp, startRun]
  · simp only [applyOp]
    rw [show ({ startRun S1 cp1 with
        fetched := (startRun S1 cp1).fetched + L.length } : RunState).messages
      = S1 from rfl]
    rw [habsent2, mark_deleted_nil_ids]

/-- Witness for C2: a one-message listing over an empty store. -/
theorem C2_witness :
    (([("a", MessageContent.mk "t" (Address.mk "n" "e") [] [] [] [] none none 0 0
        false false)].map Prod.fst).Nodup)
    ∧ ((sync_run 2 SyncMode.full
        [("a", MessageContent.mk "t" (Address.mk "n" "e") [] [] [] [] none none 0 0
          false false)] 7
        (sync_run 1 SyncMode.full
          [("a", MessageContent.mk "t" (Address.mk "n" "e") [] [] [] [] none none 0 0
            false false)] 5 [] (SyncCheckpoint.mk none none RunStatus.clean)).messages
        (sync_run 1 SyncMode.full
          [("a", MessageContent.mk "t" (Address.mk "n" "e") [] [] [] [] none none 0 0
            false false)] 5 [] (SyncCheckpoint.mk none none RunStatus.clean)).checkpoint).inserted
        = 0
      ∧ (sync_run 2 SyncMode.full
        [("a", MessageContent.mk "t" (Address.mk "n" "e") [] [] [] [] none none 0 0
          false false)] 7
        (sync_run 1 SyncMode.full
          [("a", MessageContent.mk "t" (Address.mk "n" "e") [] [] [] [] none none 0 0
            false false)] 5 [] (SyncCheckpoint.mk none none RunStatus.clean)).messages
        (sync_run 1 SyncMode.full
          [("a", MessageContent.mk "t" (Address.mk "n" "e") [] [] [] [] none none 0 0
            false false)] 5 [] (SyncCheckpoint.mk none none RunStatus.clean)).checkpoint).updated
        = 0
      ∧ (sync_run 2 SyncMode.full
        [("a", MessageContent.mk "t" (Address.mk "n" "e") [] [] [] [] none none 0 0
          false false)] 7
        (sync_run 1 SyncMode.full
          [("a", MessageContent.mk "t" (Address.mk "n" "e") [] [] [] [] none none 0 0
            false false)] 5 [] (SyncCheckpoint.mk none none RunStatus.clean)).messages
        (sync_run 1 SyncMode.full
          [("a", MessageContent.mk "t" (Address.mk "n" "e") [] [] [] [] none none 0 0
            false false)] 5 [] (SyncCheckpoint.mk none none RunStatus.clean)).checkpoint).messages
        = (sync_run 1 SyncMode.full
          [("a", MessageContent.mk "t" (Address.mk "n" "e") [] [] [] [] none none 0 0
            false false)] 5 [] (SyncCheckpoint.mk none none RunStatus.clean)).messages) :=
  ⟨by decide,
    C2_full_sync_idempotent 1 2
      [("a", MessageContent.mk "t" (Address.mk "n" "e") [] [] [] [] none none 0 0
        false false)] 5 7 [] (SyncCheckpoint.mk none none RunStatus.clean) (by decide)⟩

lemma lookupMsg_mem (s : MessageStore) (id : String) (r : MessageRecord)
    (h : lookupMsg s id = some r) : (id, r) ∈ s := by
  unfold lookupMsg at h
  cases hf : s.find? (fun e => decide (e.1 = id)) with
  | none => rw [hf] at h; cases h
  | some e =>
    rw [hf] at h
    have h2 : e.2 = r := by
      simpa using h
    have he1 : e.1 = id := by simpa using List.find?_some hf
    have hmem := List.mem_of_find?_eq_some hf
    rw [← he1, ← h2, Prod.mk.eta]
    exact hmem

/-- C3: deletion precision — a message stored live but absent from a full
remote listing is flagged `is_deleted := true` by the full run, exactly
once (a second full run over the same listing leaves the flagged record
byte-for-byte unchanged, in particular it does not bump
`last_indexed_at` again); and an incremental run never newly flags any
record: a record deleted after an incremental run was already deleted
before it. -/
theorem C3_deletion_precision :
    (∀ (now : Nat) (L : List (String × MessageContent)) (p : Nat)
        (ms : MessageStore) (cp : SyncCheckpoint) (id : String) (rec : MessageRecord),
      lookupMsg ms id = some rec → rec.is_deleted = false → id ∉ L.map Prod.fst →
      lookupMsg (sync_run now SyncMode.full L p ms cp).messages id
        = some { rec with is_deleted := true, last_indexed_at := now }
      ∧ (∀ (now2 p2 : Nat) (cp2 : SyncCheckpoint),
          lookupMsg (sync_run now2 SyncMode.full L p2
              (sync_run now SyncMode.full L p ms cp).messages cp2).messages id
            = some { rec with is_deleted := true, last_indexed_at := now }))
    ∧ (∀ (now : Nat) (L : List (String × MessageContent)) (p : Nat)
        (ms : MessageStore) (cp : SyncCheckpoint) (id : String) (r' : MessageRecord),
      lookupMsg (sync_run now SyncMode.incremental L p ms cp).messages id = some r' →
      r'.is_deleted = true →
      ∃ r, lookupMsg ms id = some r ∧ r.is_deleted = true) := by
  constructor
  · intro now L p ms cp id rec hlk hdel hnot
    rw [sync_run_full_decomp now L p ms cp]
    set stF := applyOps now (startRun ms cp)
      (L.map (fun e => SyncOp.writeRecord e.1 e.2)) with hstF
    set absent1 := (list_known_ids false stF.messages).filter
      (fun i => !(L.map Prod.fst).contains i) with habsent1
    have hmsg :
        (applyOp now
          (applyOp now stF (SyncOp.reconcileDeletions (L.map Prod.fst)))
          (SyncOp.writeCheckpoint
            (commit_checkpoint now SyncMode.full p cp))).messages
        = (mark_deleted now absent1 stF.messages).1 := rfl
    have hlkF : lookupMsg stF.messages id = some rec := by
      rw [hstF]
      rw [applyOps_fetch_lookup_not_mem now L (startRun ms cp) id hnot]
      exact hlk
    have hid1 : id ∈ absent1 := by
      rw [habsent1, List.mem_filter]
      refine ⟨(mem_list_known_ids stF.messages id).mpr
        ⟨rec, lookupMsg_mem _ _ _ hlkF, hdel⟩, ?_⟩
      simp [List.contains, List.elem_eq_mem, hnot]
    have hflag : lookupMsg (mark_deleted now absent1 stF.messages).1 id
        = some { rec with is_deleted := true, last_indexed_at := now } := by
      rw [mark_deleted_lookup, hlkF]
      simp [hid1, hdel]
    refine ⟨by rw [hmsg]; exact hflag, ?_⟩
    intro now2 p2 cp2
    rw [sync_run_full_decomp now2 L p2]
    set S1 := (applyOp now
      (applyOp now stF (SyncOp.reconcileDeletions (L.map Prod.fst)))
      (SyncOp.writeCheckpoint
        (commit_checkpoint now SyncMode.full p cp))).messages with hS1def
    have hlkS1 : lookupMsg S1 id
        = some { rec with is_deleted := true, last_indexed_at := now } := by
      rw [hmsg]
      exact hflag
    set stF2 := applyOps now2 (startRun S1 cp2)
      (L.map (fun e => SyncOp.writeRecord e.1 e.2)) with hstF2
    have hlkF2 : lookupMsg stF2.messages id
        = some { rec with is_deleted := true, last_indexed_at := now } := by
      rw [hstF2, applyOps_fetch_lookup_not_mem now2 L (startRun S1 cp2) id hnot]
      exact hlkS1
    have hmsg2 :
        (applyOp now2
          (applyOp now2 stF2 (SyncOp.reconcileDeletions (L.map Prod.fst)))
          (SyncOp.writeCheckpoint
            (commit_checkpoint now2 SyncMode.full p2 cp2))).messages
        = (mark_deleted now2 ((list_known_ids false stF2.messages).filter
            (fun i => !(L.map Prod.fst).contains i)) stF2.messages).1 := rfl
    rw [hmsg2, mark_deleted_lookup, hlkF2]
    simp
  · intro now L p ms cp id r' h hd
    rw [sync_run_incr_decomp] at h
    have h' : lookupMsg (applyOps now (startRun ms cp)
        (L.map (fun e => SyncOp.writeRecord e.1 e.2))).messages id = some r' := h
    exact applyOps_fetch_deleted_before now L (startRun ms cp) id r' h' hd

/-- Witness for C3: store `{b}` live, full listing `{a}` — `b` gets
flagged by the full run. -/
theorem C3_witness :
    (lookupMsg [("b", MessageRecord.mk
        (MessageContent.mk "t" (Address.mk "n" "e") [] [] [] [] none none 0 0
          false false) false 5)] "b"
      = some (MessageRecord.mk
        (MessageContent.mk "t" (Address.mk "n" "e") [] [] [] [] none none 0 0
          false false) false 5))
    ∧ ((MessageRecord.mk
        (MessageContent.mk "t" (Address.mk "n" "e") [] [] [] [] none none 0 0
          false false) false 5).is_deleted = false)
    ∧ ("b" ∉ ([("a", MessageContent.mk "t" (Address.mk "n" "e") [] [] [] [] none none
        0 0 false false)].map Prod.fst))
    ∧ (lookupMsg (sync_run 9 SyncMode.full
        [("a", MessageContent.mk "t" (Address.mk "n" "e") [] [] [] [] none none 0 0
          false false)] 3
        [("b", MessageRecord.mk
          (MessageContent.mk "t" (Address.mk "n" "e") [] [] [] [] none none 0 0
            false false) false 5)]
        (SyncCheckpoint.mk none none RunStatus.clean)).messages "b"
      = some { (MessageRecord.mk
          (MessageContent.mk "t" (Address.mk "n" "e") [] [] [] [] none none 0 0
            false false) false 5) with is_deleted := true, last_indexed_at := 9 }) :=
  ⟨by decide, by decide, by decide,
    (C3_deletion_precision.1 9
      [("a", MessageContent.mk "t" (Address.mk "n" "e") [] [] [] [] none none 0 0
        false false)] 3
      [("b", MessageRecord.mk
        (MessageContent.mk "t" (Address.mk "n" "e") [] [] [] [] none none 0 0
          false false) false 5)]
      (SyncCheckpoint.mk none none RunStatus.clean) "b"
      (MessageRecord.mk
        (MessageContent.mk "t" (Address.mk "n" "e") [] [] [] [] none none 0 0
          false false) false 5)
      (by decide) (by decide) (by decide)).1⟩

lemma remote_evolves_position (r1 r2 : RemoteState) (h : RemoteEvolves r1 r2) :
    r1.position ≤ r2.position := by
  obtain ⟨cs, rfl⟩ := h
  induction cs generalizing r1 with
  | nil => exact Nat.le_refl _
  | cons ch t ih =>
    have h1 : r1.position ≤ (applyRemoteChange r1 ch).position := by
      cases ch <;> simp [applyRemoteChange]
    exact Nat.le_trans h1 (ih (applyRemoteChange r1 ch))

/-- C7: for two consecutive successful sync runs — the second against a
remote state that evolved from the first's — the cursor committed by the
later run is ≥ the cursor committed by the earlier run: the committed
cursor never regresses. -/
theorem C7_committed_cursor_monotone :
    ∀ (ms : MessageStore) (cp : SyncCheckpoint) (now1 now2 : Nat)
      (mode1 mode2 : SyncMode) (r1 r2 : RemoteState),
      RemoteEvolves r1 r2 →
      ∃ p1 p2,
        (sync_run now1 mode1 (list_all r1).1 (list_all r1).2 ms cp).checkpoint.cursor
          = some p1
        ∧ (sync_run now2 mode2 (list_all r2).1 (list_all r2).2
            (sync_run now1 mode1 (list_all r1).1 (list_all r1).2 ms cp).messages
            (sync_run now1 mode1 (list_all r1).1 (list_all r1).2 ms cp).checkpoint
          ).checkpoint.cursor = some p2
        ∧ p1 ≤ p2 := by
  intro ms cp now1 now2 mode1 mode2 r1 r2 h
  refine ⟨r1.position, r2.position, ?_, ?_, remote_evolves_position r1 r2 h⟩
  · rw [sync_run_checkpoint]
    cases mode1 <;> rfl
  · rw [sync_run_checkpoint]
    cases mode2 <;> rfl

/-- Witness for C7: an unchanged remote between two runs. -/
theorem C7_witness :
    RemoteEvolves (RemoteState.mk [] 4) (RemoteState.mk [] 4)
    ∧ ∃ p1 p2,
        (sync_run 0 SyncMode.full (list_all (RemoteState.mk [] 4)).1
            (list_all (RemoteState.mk [] 4)).2 []
            (SyncCheckpoint.mk none none RunStatus.clean)).checkpoint.cursor
          = some p1
        ∧ (sync_run 1 SyncMode.incremental (list_all (RemoteState.mk [] 4)).1
            (list_all (RemoteState.mk [] 4)).2
            (sync_run 0 SyncMode.full (list_all (RemoteState.mk [] 4)).1
              (list_all (RemoteState.mk [] 4)).2 []
              (SyncCheckpoint.mk none none RunStatus.clean)).messages
            (sync_run 0 SyncMode.full (list_all (RemoteState.mk [] 4)).1
              (list_all (RemoteState.mk [] 4)).2 []
              (SyncCheckpoint.mk none none RunStatus.clean)).checkpoint
          ).checkpoint.cursor = some p2
        ∧ p1 ≤ p2 :=
  ⟨⟨[], rfl⟩,
    C7_committed_cursor_monotone [] (SyncCheckpoint.mk none none RunStatus.clean)
      0 1 SyncMode.full SyncMode.incremental (RemoteState.mk [] 4)
      (RemoteState.mk [] 4) ⟨[], rfl⟩⟩

end GmailToSqlite
